import Mathlib

/-!
Verification of the Transaction Filtering Pipeline of `app.py`.

The pipeline operates on an in-memory table (`pandas.DataFrame`).  We embed a
table as a `List Row`, where `Row` carries the four interpreted columns
(`Sendername`, `Amount`, `Message`, `Transday`).  Missing values (pandas
`NaN`/`NaT`) are embedded as `none`; dates are embedded at day granularity as
integers, matching the data model (`transaction_day : calendar date`); Python
strings are embedded as `List Char` so that every operation is structurally
recursive; amounts are rationals (`pd.to_numeric` values).
-/

namespace App

/-- A Python string, embedded as its character list. -/
abbrev Str := List Char

/-- One parsed transaction record: the interpreted columns of a row of the
combined DataFrame `df_total`.  `sendername = none` models a NaN cell in the
`Sendername` column, `amount = none` a NaN produced by the amount coercion. -/
structure Row where
  sendername : Option Str
  amount : Option ℚ
  message : Option Str
  transday : Int
deriving DecidableEq, Repr

/-! ### String primitives (Python `str.strip`, `str.split`, lower-casing) -/

/-- Python `str.strip()`: drop whitespace from both ends. -/
def trimChars (s : Str) : Str :=
  ((s.dropWhile Char.isWhitespace).reverse.dropWhile Char.isWhitespace).reverse

/-- Python `str.split(sep)` for a one-character separator: `[]` splits to
`[[]]`, and every separator occurrence opens a new piece. -/
def splitOnChar (sep : Char) : Str → List Str
  | [] => [[]]
  | c :: cs =>
      match splitOnChar sep cs, decide (c = sep) with
      | rest, true => [] :: rest
      | [], false => [[c]]
      | h :: t, false => (c :: h) :: t

/-- Case folding for the `case=False` regex flag. -/
def lcStr (s : Str) : Str :=
  s.map Char.toLower

/-! ### Ingestion: amount coercion (app.py line 45) -/

/-- Digits of a decimal literal, most significant first, as a natural number. -/
def digitsVal (l : Str) : Nat :=
  l.foldl (fun n c => 10 * n + (c.toNat - 48)) 0

/-- Embeds `pd.to_numeric(cell, errors='coerce')` on a single cell holding a
plain decimal literal: an optional sign, digits, and an optional fractional
part parse to a rational; anything else coerces to the missing value `none`
rather than raising. -/
def toNumeric (cell : Str) : Option ℚ :=
  let t := trimChars cell
  let (neg, body) :=
    match t with
    | '-' :: rest => (true, rest)
    | '+' :: rest => (false, rest)
    | _ => (false, t)
  let signed : ℚ → ℚ := fun q => if neg then -q else q
  match splitOnChar '.' body with
  | [ip] =>
      if ip ≠ [] ∧ ip.all Char.isDigit then
        some (signed (digitsVal ip))
      else none
  | [ip, fp] =>
      if (ip ≠ [] ∨ fp ≠ []) ∧ ip.all Char.isDigit ∧ fp.all Char.isDigit then
        some (signed ((digitsVal ip : ℚ) + (digitsVal fp : ℚ) / ((10 : ℚ) ^ fp.length)))
      else none
  | _ => none

/-! ### Date range stage (app.py lines 49-64) -/

/-- `df_total['Transday'].min()` (`none` on the empty table, pandas `NaT`). -/
def minTransday (df : List Row) : Option Int :=
  (df.map (·.transday)).min?

/-- `df_total['Transday'].max()` (`none` on the empty table, pandas `NaT`). -/
def maxTransday (df : List Row) : Option Int :=
  (df.map (·.transday)).max?

/-- Embeds app.py lines 49-50: `df_total['Transday'].min().date()` and
`.max().date()`.  On an empty table both `min()` and `max()` are `NaT`, and
`NaT.date()` raises `ValueError: NaTType does not support date`; the error
case of this function models that raise. -/
def dateDefaults (df : List Row) : Except String (Int × Int) :=
  match minTransday df, maxTransday df with
  | some a, some b => Except.ok (a, b)
  | _, _ => Except.error "NaTType does not support date"

/-- Embeds app.py lines 59-64: when both bounds are present, keep the rows with
`start <= Transday <= end` (a boolean mask of two inclusive comparisons);
otherwise the table passes through unchanged. -/
def filterByDate (sd ed : Option Int) (df : List Row) : List Row :=
  match sd, ed with
  | some a, some b =>
      df.filter (fun r => decide (a ≤ r.transday) && decide (r.transday ≤ b))
  | _, _ => df

/-! ### Name filter stage (app.py lines 70-82) -/

/-- Embeds app.py lines 72-74: split the raw input on commas, strip each piece,
drop the empty pieces (the `if name` guard). -/
def parseFragments (input : Str) : List Str :=
  ((splitOnChar ',' input).map trimChars).filter (fun n => decide (n ≠ []))

/-- Embeds `Series.str.contains(pattern, case=False, na=False)` where `pattern`
is the `'|'`-join of the `re.escape`d fragments: a NaN sender never matches
(`na=False`); a present sender matches when some fragment occurs in it as a
case-insensitive literal substring — except that when the fragment list is
empty the joined pattern is the empty regex, which matches every present
sender. -/
def sendernameMatches (frags : List Str) : Option Str → Bool
  | none => false
  | some s => frags.isEmpty || frags.any (fun f => decide (lcStr f <:+: lcStr s))

/-- Embeds app.py lines 70-78: the name filter runs only when the raw input is
non-empty (`if name_input:`, an empty Python string being falsy). -/
def filterByName (input : Str) (df : List Row) : List Row :=
  if input = [] then df
  else df.filter (fun r => sendernameMatches (parseFragments input) r.sendername)

/-! ### Amount partition (app.py lines 95-127) -/

/-- Embeds `Series.isin(amounts_to_filter)` on the `Amount` column: a NaN
amount is never a member (the multiselect options are the non-missing
amounts). -/
def amountIsin (S : List ℚ) : Option ℚ → Bool
  | none => false
  | some q => decide (q ∈ S)

/-- Embeds app.py lines 95-100: with a non-empty selection keep the rows whose
amount is a member, otherwise copy the whole table. -/
def df_filtered (S : List ℚ) (df : List Row) : List Row :=
  if S.isEmpty then df
  else df.filter (fun r => amountIsin S r.amount)

/-- The sort key of `sort_values(by='Transday', ascending=False)`: `a` comes
before `b` when `a` has the later (or equal) transaction day. -/
def geByTransday (a b : Row) : Prop :=
  b.transday ≤ a.transday

instance : DecidableRel geByTransday :=
  fun a b => inferInstanceAs (Decidable (b.transday ≤ a.transday))

instance : IsTotal Row geByTransday :=
  ⟨fun a b => le_total b.transday a.transday⟩

instance : IsTrans Row geByTransday :=
  ⟨fun _ _ _ h1 h2 => le_trans h2 h1⟩

/-- Worker for the keep-first deduplication: `seen` is the set of sender keys
already emitted; a row whose sender was already seen is dropped. -/
def dedupBySenderAux (seen : List (Option Str)) : List Row → List Row
  | [] => []
  | r :: rs =>
      if r.sendername ∈ seen then dedupBySenderAux seen rs
      else r :: dedupBySenderAux (r.sendername :: seen) rs

/-- Embeds `drop_duplicates(subset='Sendername', keep='first')`: keep the first
row of each distinct sender (pandas treats two NaN senders as duplicates, as
does equality on `Option Str`). -/
def dedupBySender (l : List Row) : List Row :=
  dedupBySenderAux [] l

/-- Embeds app.py lines 105-113: `df_result` is the amount-filtered table
(projected to the four interpreted columns, which `Row` already is); when the
unique-sendernames checkbox is set it is sorted by `Transday` descending and
reduced to the first row per sender. -/
def df_result (S : List ℚ) (collapse : Bool) (df : List Row) : List Row :=
  if collapse then dedupBySender (List.insertionSort geByTransday (df_filtered S df))
  else df_filtered S df

/-- Embeds app.py lines 116-124: with a non-empty amount selection,
`df_other_amounts` is the rows of `df_total` whose sender occurs in
`df_result` (`Sendername.isin(sendernames)`, where pandas matches a NaN
sender against a NaN entry) and whose amount is not a member of the selection
(`~Amount.isin(amounts_to_filter)`); with an empty selection it is the
explicitly empty table of line 124. -/
def df_other_amounts (S : List ℚ) (collapse : Bool) (df : List Row) : List Row :=
  if S.isEmpty then []
  else
    df.filter (fun r =>
      (df_result S collapse df).any (fun x => decide (x.sendername = r.sendername))
        && !(amountIsin S r.amount))

/-! ### Summary statistics (app.py lines 134-161) -/

/-- `Series.sum()` over the `Amount` column: NaN entries are skipped, the sum
of no entries is `0`. -/
def sumAmounts (df : List Row) : ℚ :=
  (df.filterMap (·.amount)).sum

/-- `Series.mean()` over the `Amount` column: the mean of the non-NaN entries,
NaN (`none`) when there are none. -/
def meanAmounts (df : List Row) : Option ℚ :=
  let xs := df.filterMap (·.amount)
  if xs.length = 0 then none
  else some (xs.sum / (xs.length : ℚ))

/-- How a statistic is rendered: a number via the `:.2f` format, the string
`nan` (formatting a NaN mean), or the literal `N/A` branch. -/
inductive StatDisplay
  | num (q : ℚ)
  | nan
  | na
deriving DecidableEq, Repr

/-- One rendered summary block: the transaction count (`len(df)`) and the
rendered total and average amounts. -/
structure Summary where
  count : Nat
  total : StatDisplay
  avg : StatDisplay
deriving DecidableEq, Repr

/-- Embeds app.py lines 135-143 (and 151-159): the count is `len(df)`; the
`N/A` branch is taken exactly when the `Amount` column is empty, i.e. when the
table has no rows; otherwise `sum()` and `mean()` are formatted, a NaN mean
rendering as `nan`. -/
def summaryBlock (df : List Row) : Summary :=
  { count := df.length
    total := if df.length = 0 then StatDisplay.na else StatDisplay.num (sumAmounts df)
    avg :=
      if df.length = 0 then StatDisplay.na
      else
        match meanAmounts df with
        | some q => StatDisplay.num q
        | none => StatDisplay.nan }

/-- Embeds app.py lines 146-161: the statistics of `df_other_amounts` are
rendered only when the table is non-empty; when it is empty an informational
message is shown instead and no summary block is produced. -/
def renderOtherStats (other : List Row) : Option Summary :=
  if other.isEmpty then none else some (summaryBlock other)

/-- app.py line 82. -/
def noNameMatchesMsg : String :=
  "No transactions found for the specified names."

/-- app.py line 185. -/
def emptyPipelineMsg : String :=
  "No transactions available after applying the filters."

/-- app.py line 161. -/
def noOtherMsg : String :=
  "No other transactions found for the selected sender names."

/-! ### Spec-side definition for the name-filter refinement claim -/

/-- The spec's description of the name-filter keep condition: a row is kept iff
its sender is present and contains at least one fragment as a case-insensitive
substring (a missing sender is never matched). -/
def claimedNameKeep (frags : List Str) (r : Row) : Bool :=
  match r.sendername with
  | none => false
  | some s => frags.any (fun f => decide (lcStr f <:+: lcStr s))

/-! ### Helper lemmas -/

theorem isEmpty_false_of_ne_nil {α : Type} {l : List α} (h : l ≠ []) : l.isEmpty = false := by
  cases l with
  | nil => exact absurd rfl h
  | cons a t => rfl

theorem dedupBySenderAux_sublist :
    ∀ (l : List Row) (seen : List (Option Str)), (dedupBySenderAux seen l).Sublist l := by
  intro l
  induction l with
  | nil => intro seen; exact List.Sublist.refl _
  | cons a rs ih =>
      intro seen
      rw [dedupBySenderAux]
      by_cases h : a.sendername ∈ seen
      · rw [if_pos h]
        exact (ih seen).cons a
      · rw [if_neg h]
        exact (ih (a.sendername :: seen)).cons₂ a

theorem dedupBySender_sublist (l : List Row) : (dedupBySender l).Sublist l :=
  dedupBySenderAux_sublist l []

theorem dedupBySenderAux_not_seen :
    ∀ (l : List Row) (seen : List (Option Str)) (x : Row),
      x ∈ dedupBySenderAux seen l → x.sendername ∉ seen := by
  intro l
  induction l with
  | nil => intro seen x hx; cases hx
  | cons a rs ih =>
      intro seen x hx
      rw [dedupBySenderAux] at hx
      by_cases h : a.sendername ∈ seen
      · rw [if_pos h] at hx
        exact ih seen x hx
      · rw [if_neg h] at hx
        rcases List.mem_cons.mp hx with hxa | hxt
        · rw [hxa]; exact h
        · have h2 := ih (a.sendername :: seen) x hxt
          exact fun hmem => h2 (List.mem_cons_of_mem _ hmem)

theorem dedupBySenderAux_pairwise :
    ∀ (l : List Row) (seen : List (Option Str)),
      (dedupBySenderAux seen l).Pairwise (fun a b => a.sendername ≠ b.sendername) := by
  intro l
  induction l with
  | nil => intro seen; exact List.Pairwise.nil
  | cons a rs ih =>
      intro seen
      rw [dedupBySenderAux]
      by_cases h : a.sendername ∈ seen
      · rw [if_pos h]
        exact ih seen
      · rw [if_neg h]
        refine List.Pairwise.cons ?_ (ih (a.sendername :: seen))
        intro x hx
        have h2 := dedupBySenderAux_not_seen rs (a.sendername :: seen) x hx
        exact fun he => h2 (he ▸ List.mem_cons_self _ _)

theorem dedupBySender_pairwise (l : List Row) :
    (dedupBySender l).Pairwise (fun a b => a.sendername ≠ b.sendername) :=
  dedupBySenderAux_pairwise l []

theorem dedupBySenderAux_covers :
    ∀ (l : List Row) (seen : List (Option Str)) (r : Row),
      r ∈ l → r.sendername ∉ seen →
        ∃ x ∈ dedupBySenderAux seen l, x.sendername = r.sendername := by
  intro l
  induction l with
  | nil => intro seen r hr; cases hr
  | cons a rs ih =>
      intro seen r hr hseen
      rw [dedupBySenderAux]
      by_cases h : a.sendername ∈ seen
      · rw [if_pos h]
        rcases List.mem_cons.mp hr with he | ht
        · exact absurd (he ▸ hseen) (fun hc => hc h)
        · exact ih seen r ht hseen
      · rw [if_neg h]
        rcases List.mem_cons.mp hr with he | ht
        · exact ⟨a, List.mem_cons_self _ _, by rw [he]⟩
        · by_cases hs : r.sendername = a.sendername
          · exact ⟨a, List.mem_cons_self _ _, hs.symm⟩
          · have hseen2 : r.sendername ∉ a.sendername :: seen := by
              intro hmem
              rcases List.mem_cons.mp hmem with h1 | h1
              · exact hs h1
              · exact hseen h1
            obtain ⟨x, hx, hxe⟩ := ih (a.sendername :: seen) r ht hseen2
            exact ⟨x, List.mem_cons_of_mem _ hx, hxe⟩

theorem dedupBySender_covers (l : List Row) : ∀ r ∈ l,
    ∃ x ∈ dedupBySender l, x.sendername = r.sendername :=
  fun r hr => dedupBySenderAux_covers l [] r hr (by simp)

theorem dedupBySenderAux_max :
    ∀ (l : List Row) (seen : List (Option Str)), l.Pairwise geByTransday →
      ∀ x ∈ dedupBySenderAux seen l, ∀ r ∈ l, r.sendername = x.sendername →
        r.transday ≤ x.transday := by
  intro l
  induction l with
  | nil => intro seen _ x hx; cases hx
  | cons a rs ih =>
      intro seen hp x hx r hr hsame
      rw [dedupBySenderAux] at hx
      by_cases h : a.sendername ∈ seen
      · rw [if_pos h] at hx
        have hxns := dedupBySenderAux_not_seen rs seen x hx
        rcases List.mem_cons.mp hr with he | ht
        · exact absurd ((he ▸ hsame : a.sendername = x.sendername) ▸ h) hxns
        · exact ih seen (List.pairwise_cons.mp hp).2 x hx r ht hsame
      · rw [if_neg h] at hx
        rcases List.mem_cons.mp hx with hxa | hxt
        · subst hxa
          rcases List.mem_cons.mp hr with he | ht
          · exact le_of_eq (congrArg Row.transday he)
          · exact (List.pairwise_cons.mp hp).1 r ht
        · have hxns := dedupBySenderAux_not_seen rs (a.sendername :: seen) x hxt
          have hxna : x.sendername ≠ a.sendername :=
            fun he => hxns (he ▸ List.mem_cons_self _ _)
          rcases List.mem_cons.mp hr with he | ht
          · exact absurd (he ▸ hsame).symm hxna
          · exact ih (a.sendername :: seen) (List.pairwise_cons.mp hp).2 x hxt r ht hsame

theorem dedupBySender_max (l : List Row) (hp : l.Pairwise geByTransday) :
    ∀ x ∈ dedupBySender l, ∀ r ∈ l, r.sendername = x.sendername →
      r.transday ≤ x.transday :=
  dedupBySenderAux_max l [] hp

theorem df_filtered_eq_filter {S : List ℚ} {df : List Row} (hS : S ≠ []) :
    df_filtered S df = df.filter (fun r => amountIsin S r.amount) := by
  simp [df_filtered, isEmpty_false_of_ne_nil hS]

theorem mem_df_filtered_isin {S : List ℚ} {df : List Row} {r : Row} (hS : S ≠ [])
    (hr : r ∈ df_filtered S df) : amountIsin S r.amount = true := by
  rw [df_filtered_eq_filter hS] at hr
  exact (List.mem_filter.mp hr).2

theorem mem_df_result_mem_filtered {S : List ℚ} {c : Bool} {df : List Row} {r : Row}
    (hr : r ∈ df_result S c df) : r ∈ df_filtered S df := by
  cases c with
  | false => exact hr
  | true =>
      rw [df_result] at hr
      have h1 := (dedupBySender_sublist _).subset hr
      exact (List.mem_insertionSort geByTransday).mp h1

theorem df_result_true (S : List ℚ) (df : List Row) :
    df_result S true df
      = dedupBySender (List.insertionSort geByTransday (df_filtered S df)) := rfl

theorem df_result_false (S : List ℚ) (df : List Row) :
    df_result S false df = df_filtered S df := rfl

theorem df_other_eq_filter (S : List ℚ) (c : Bool) (df : List Row) (hS : S ≠ []) :
    df_other_amounts S c df
      = df.filter (fun r =>
          (df_result S c df).any (fun x => decide (x.sendername = r.sendername))
            && !(amountIsin S r.amount)) := by
  rw [df_other_amounts, isEmpty_false_of_ne_nil hS]
  rfl

theorem filterMap_amount_filter (df : List Row) :
    (df.filter (fun r => r.amount.isSome)).filterMap (·.amount)
      = df.filterMap (·.amount) := by
  induction df with
  | nil => rfl
  | cons r rs ih =>
      cases h : r.amount with
      | none => simp [List.filter_cons, List.filterMap_cons, h, ih]
      | some q => simp [List.filter_cons, List.filterMap_cons, h, ih]

/-! ### Claim theorems -/

/-- C2: with an empty amount selection, `df_other_amounts` is the explicitly
empty table no matter what the dataset holds, and the amount-filter stage
copies the whole name/date-filtered dataset. -/
theorem C2_empty_selection (df : List Row) (collapse : Bool) :
    df_other_amounts [] collapse df = [] ∧ df_filtered [] df = df := by
  constructor
  · simp [df_other_amounts]
  · simp [df_filtered]

/-- C3: with both bounds present the date filter keeps exactly the rows (with
multiplicity) whose `Transday` lies in the inclusive interval
`[start, end]`; with either bound absent the dataset passes through
unchanged. -/
theorem C3_date_range_filter (df : List Row) (a b : Int) (r : Row) :
    ((filterByDate (some a) (some b) df).count r
        = if a ≤ r.transday ∧ r.transday ≤ b then df.count r else 0)
    ∧ (filterByDate (some a) (some b) df).Sublist df
    ∧ (∀ (e : Option Int) (d2 : List Row), filterByDate none e d2 = d2)
    ∧ (∀ (s : Option Int) (d2 : List Row), filterByDate s none d2 = d2) := by
  refine ⟨?_, List.filter_sublist _, ?_, ?_⟩
  · by_cases h : a ≤ r.transday ∧ r.transday ≤ b
    · rw [if_pos h]
      simp only [filterByDate]
      exact List.count_filter (by simp [h.1, h.2])
    · rw [if_neg h]
      simp only [filterByDate]
      rw [List.count_eq_zero]
      intro hmem
      rcases List.mem_filter.mp hmem with ⟨-, hcond⟩
      rw [Bool.and_eq_true] at hcond
      exact h ⟨of_decide_eq_true hcond.1, of_decide_eq_true hcond.2⟩
  · intro e d2; cases e <;> rfl
  · intro s d2; cases s <;> rfl

/-- C7: on the empty dataset the default-range computation of the date stage is
undefined: `Transday.min()`/`max()` are `NaT` and the code's `.date()` call
raises instead of short-circuiting, which the error value embeds. -/
theorem C7_empty_dataset_crash :
    dateDefaults [] = Except.error "NaTType does not support date"
      ∧ minTransday [] = none ∧ maxTransday [] = none :=
  ⟨rfl, rfl, rfl⟩

/-- C9 counterexample: the raw input `","` is non-empty (truthy), its fragment
set is empty, yet the dataset does not pass through unchanged: the joined
pattern is the empty regex and the `na=False` flag drops the row whose
sender is missing. -/
theorem C9_counterexample :
    (",".toList ≠ []) ∧ parseFragments ",".toList = []
      ∧ filterByName ",".toList [⟨none, some 5, none, 0⟩] = [] := by
  refine ⟨by decide, by decide, by decide⟩

/-- C9 (amended): with an empty raw input the dataset passes through unchanged;
with a non-empty raw input whose fragments all trim to empty, the filter
instead keeps exactly the rows with a present sender-name. -/
theorem C9_empty_fragments (df : List Row) :
    filterByName [] df = df
      ∧ ∀ input : Str, input ≠ [] → parseFragments input = [] →
          filterByName input df = df.filter (fun r => r.sendername.isSome) := by
  constructor
  · simp [filterByName]
  · intro input hne hfr
    rw [filterByName, if_neg hne]
    refine List.filter_congr ?_
    intro r _
    rw [hfr]
    cases h : r.sendername <;> simp [sendernameMatches]

/-- C9 witness: at the concrete input `","` (all fragments trim to empty) and a
two-row dataset, the amended theorem applies. -/
theorem C9_witness :
    filterByName ",".toList [⟨some "Alice".toList, some 5, none, 0⟩, ⟨none, some 7, none, 1⟩]
      = ([⟨some "Alice".toList, some 5, none, 0⟩, ⟨none, some 7, none, 1⟩] : List Row).filter
          (fun r => r.sendername.isSome) :=
  (C9_empty_fragments _).2 ",".toList (by decide) (by decide)

/-- C4 counterexample: the input `","` is a non-empty comma-separated input with
no fragments, so the claimed keep-condition ("contains at least one
fragment") keeps nothing, but the code keeps every present-sender row (the
joined pattern is the empty regex). -/
theorem C4_counterexample :
    (",".toList ≠ []) ∧ parseFragments ",".toList = []
      ∧ filterByName ",".toList [⟨some "Alice".toList, some 5, none, 0⟩]
          = [⟨some "Alice".toList, some 5, none, 0⟩]
      ∧ ([⟨some "Alice".toList, some 5, none, 0⟩] : List Row).filter
          (claimedNameKeep (parseFragments ",".toList)) = [] := by
  refine ⟨by decide, by decide, by decide, by decide⟩

/-- C4 (amended): whenever the comma-split, trimmed, empty-dropped fragment
list is non-empty, the name filter keeps a row iff its sender-name is present
and contains at least one fragment as a case-insensitive literal substring
(the spec-side condition `claimedNameKeep`). -/
theorem C4_name_filter (input : Str) (df : List Row)
    (h : parseFragments input ≠ []) :
    filterByName input df = df.filter (claimedNameKeep (parseFragments input)) := by
  have hin : input ≠ [] := by
    intro he
    exact h (by rw [he]; rfl)
  rw [filterByName, if_neg hin]
  refine List.filter_congr ?_
  intro r _
  rw [claimedNameKeep, sendernameMatches.eq_def]
  cases r.sendername with
  | none => rfl
  | some s => simp [isEmpty_false_of_ne_nil h]

/-- C4 witness: the fragment list of `"ann, bob"` is non-empty and the theorem
applies to a concrete three-row dataset (matching sender, non-matching
sender, missing sender). -/
theorem C4_witness :
    filterByName "ann, bob".toList
        [⟨some "Anna Lee".toList, some 5, none, 0⟩, ⟨some "Carl".toList, some 7, none, 1⟩,
          ⟨none, some 9, none, 2⟩]
      = ([⟨some "Anna Lee".toList, some 5, none, 0⟩, ⟨some "Carl".toList, some 7, none, 1⟩,
          ⟨none, some 9, none, 2⟩] : List Row).filter
          (claimedNameKeep (parseFragments "ann, bob".toList)) :=
  C4_name_filter "ann, bob".toList _ (by decide)

/-- C10: a non-empty `filtered` table all of whose amounts are missing still
takes the numeric branch (its `Amount` column is non-empty), reporting a
total of `0` and a NaN average, never `N/A`; the `N/A` branch is taken
exactly for the table with no rows. -/
theorem C10_all_missing_amounts (df : List Row) (hne : df ≠ [])
    (hmiss : ∀ r ∈ df, r.amount = none) :
    summaryBlock df = ⟨df.length, StatDisplay.num 0, StatDisplay.nan⟩
      ∧ ∀ d : List Row, ((summaryBlock d).total = StatDisplay.na ↔ d = []) := by
  constructor
  · have hlen : df.length ≠ 0 := by
      simpa [List.length_eq_zero] using hne
    have hfm : df.filterMap (·.amount) = [] :=
      List.filterMap_eq_nil_iff.mpr hmiss
    simp [summaryBlock, hlen, sumAmounts, meanAmounts, hfm]
  · intro d
    by_cases hd : d = []
    · simp [summaryBlock, hd]
    · have hlen : d.length ≠ 0 := by
        simpa [List.length_eq_zero] using hd
      simp [summaryBlock, hlen, hd]

/-- C10 witness: a one-row table whose only amount is missing reports
`count = 1`, `total = 0`, `average = nan`. -/
theorem C10_witness :
    summaryBlock [⟨some "A".toList, none, none, 1⟩]
      = ⟨1, StatDisplay.num 0, StatDisplay.nan⟩ :=
  (C10_all_missing_amounts [⟨some "A".toList, none, none, 1⟩] (by decide) (by decide)).1

/-- C1: with a non-empty amount selection, every row of `df_other_amounts` has
a sender with at least one row in `df_result` and an amount that is not a
member of the selection, and no (sender, amount) pair occurs in both output
tables. -/
theorem C1_other_partition (S : List ℚ) (c : Bool) (df : List Row) (hS : S ≠ []) :
    (∀ r ∈ df_other_amounts S c df,
        (∃ x ∈ df_result S c df, x.sendername = r.sendername)
          ∧ amountIsin S r.amount = false)
      ∧ ∀ r ∈ df_result S c df, ∀ r2 ∈ df_other_amounts S c df,
          ¬(r.sendername = r2.sendername ∧ r.amount = r2.amount) := by
  constructor
  · intro r hr
    rw [df_other_eq_filter S c df hS] at hr
    rcases List.mem_filter.mp hr with ⟨-, hcond⟩
    rw [Bool.and_eq_true] at hcond
    obtain ⟨hany, hnot⟩ := hcond
    rw [List.any_eq_true] at hany
    obtain ⟨x, hx, he⟩ := hany
    refine ⟨⟨x, hx, of_decide_eq_true he⟩, ?_⟩
    rw [Bool.not_eq_true'] at hnot
    exact hnot
  · rintro r hr r2 hr2 ⟨hsn, ham⟩
    have h1 : amountIsin S r.amount = true :=
      mem_df_filtered_isin hS (mem_df_result_mem_filtered hr)
    rw [df_other_eq_filter S c df hS] at hr2
    rcases List.mem_filter.mp hr2 with ⟨-, hcond⟩
    rw [Bool.and_eq_true] at hcond
    have h2 : amountIsin S r2.amount = false := by
      rw [Bool.not_eq_true'] at hcond
      exact hcond.2
    rw [ham] at h1
    rw [h1] at h2
    cases h2

/-- C1 witness: the partition property instantiated with the selection `[5]`
and a dataset where sender A has a selected and an unselected amount. -/
theorem C1_witness :
    (([(5 : ℚ)] : List ℚ) ≠ [])
      ∧ ((∀ r ∈ df_other_amounts [(5 : ℚ)] false
            [⟨some "A".toList, some 5, none, 1⟩, ⟨some "A".toList, some 7, none, 2⟩,
              ⟨some "B".toList, some 7, none, 3⟩],
            (∃ x ∈ df_result [(5 : ℚ)] false
              [⟨some "A".toList, some 5, none, 1⟩, ⟨some "A".toList, some 7, none, 2⟩,
                ⟨some "B".toList, some 7, none, 3⟩], x.sendername = r.sendername)
              ∧ amountIsin [(5 : ℚ)] r.amount = false)
          ∧ ∀ r ∈ df_result [(5 : ℚ)] false
              [⟨some "A".toList, some 5, none, 1⟩, ⟨some "A".toList, some 7, none, 2⟩,
                ⟨some "B".toList, some 7, none, 3⟩],
              ∀ r2 ∈ df_other_amounts [(5 : ℚ)] false
                [⟨some "A".toList, some 5, none, 1⟩, ⟨some "A".toList, some 7, none, 2⟩,
                  ⟨some "B".toList, some 7, none, 3⟩],
                ¬(r.sendername = r2.sendername ∧ r.amount = r2.amount)) :=
  ⟨by decide, C1_other_partition [(5 : ℚ)] false _ (by decide)⟩

/-- C6 counterexample: an unparseable amount cell coerces to missing rather
than raising; but a missing-amount row is not excluded from amount-based
membership filtering in both output tables: with selection `[5]`, sender A's
missing-amount row passes the negated membership test of `df_other_amounts`
and is listed (and counted) there. -/
theorem C6_counterexample :
    toNumeric "abc".toList = none
      ∧ df_other_amounts [(5 : ℚ)] false
          [⟨some "A".toList, some 5, none, 1⟩, ⟨some "A".toList, none, none, 2⟩]
        = [⟨some "A".toList, none, none, 2⟩]
      ∧ (summaryBlock (df_other_amounts [(5 : ℚ)] false
          [⟨some "A".toList, some 5, none, 1⟩, ⟨some "A".toList, none, none, 2⟩])).count
        = 1 := by
  refine ⟨by decide, by decide, by decide⟩

/-- C6 (amended): an unparseable amount coerces to missing instead of raising;
missing-amount rows are excluded from `df_filtered` whenever the selection is
non-empty and are skipped by the sum and mean aggregates; they can however
appear in `df_other_amounts` (whose amount test is a negated membership) and
they do contribute to the row counts. -/
theorem C6_missing_amounts (df : List Row) (S : List ℚ) (hS : S ≠ []) :
    (∀ r ∈ df_filtered S df, r.amount ≠ none)
      ∧ sumAmounts df = sumAmounts (df.filter (fun r => r.amount.isSome))
      ∧ meanAmounts df = meanAmounts (df.filter (fun r => r.amount.isSome)) := by
  refine ⟨?_, ?_, ?_⟩
  · intro r hr hnone
    have h1 := mem_df_filtered_isin hS hr
    rw [hnone] at h1
    cases h1
  · rw [sumAmounts, sumAmounts, filterMap_amount_filter]
  · rw [meanAmounts, meanAmounts, filterMap_amount_filter]

/-- C6 witness: the amended statement instantiated with the selection `[5]` and
a table holding a present and a missing amount. -/
theorem C6_witness :
    (([(5 : ℚ)] : List ℚ) ≠ [])
      ∧ ((∀ r ∈ df_filtered [(5 : ℚ)]
            [⟨some "A".toList, some 5, none, 1⟩, ⟨some "A".toList, none, none, 2⟩],
            r.amount ≠ none)
          ∧ sumAmounts [⟨some "A".toList, some 5, none, 1⟩, ⟨some "A".toList, none, none, 2⟩]
            = sumAmounts (([⟨some "A".toList, some 5, none, 1⟩,
                ⟨some "A".toList, none, none, 2⟩] : List Row).filter
                (fun r => r.amount.isSome))
          ∧ meanAmounts [⟨some "A".toList, some 5, none, 1⟩, ⟨some "A".toList, none, none, 2⟩]
            = meanAmounts (([⟨some "A".toList, some 5, none, 1⟩,
                ⟨some "A".toList, none, none, 2⟩] : List Row).filter
                (fun r => r.amount.isSome))) :=
  ⟨by decide, C6_missing_amounts _ [(5 : ℚ)] (by decide)⟩

/-- C8 counterexample: for a dataset whose every matching-sender amount is
selected, `df_other_amounts` is empty and the code renders no summary block
at all (an informational message replaces it), instead of the count=0 /
`N/A` report the claim describes. -/
theorem C8_counterexample :
    df_other_amounts [(5 : ℚ)] false [⟨some "A".toList, some 5, none, 1⟩] = []
      ∧ renderOtherStats
          (df_other_amounts [(5 : ℚ)] false [⟨some "A".toList, some 5, none, 1⟩]) = none
      ∧ renderOtherStats
          (df_other_amounts [(5 : ℚ)] false [⟨some "A".toList, some 5, none, 1⟩])
        ≠ some ⟨0, StatDisplay.na, StatDisplay.na⟩ := by
  refine ⟨by decide, by decide, by decide⟩

/-- C8 (amended): the three empty-result conditions carry three distinct
informational messages and none of them throws; summary statistics, however,
are rendered only for a non-empty table — an empty `other` table produces no
summary block at all — and a rendered block reports the row count with a
numeric (never `N/A`) total and average. -/
theorem C8_empty_result_states (other : List Row) (hne : other ≠ []) :
    noNameMatchesMsg ≠ emptyPipelineMsg
      ∧ noNameMatchesMsg ≠ noOtherMsg
      ∧ emptyPipelineMsg ≠ noOtherMsg
      ∧ renderOtherStats [] = none
      ∧ renderOtherStats other = some (summaryBlock other)
      ∧ (summaryBlock other).count = other.length
      ∧ (summaryBlock other).total ≠ StatDisplay.na
      ∧ (summaryBlock other).avg ≠ StatDisplay.na := by
  have hlen : other.length ≠ 0 := by
    simpa [List.length_eq_zero] using hne
  refine ⟨by decide, by decide, by decide, rfl, ?_, rfl, ?_, ?_⟩
  · rw [renderOtherStats, isEmpty_false_of_ne_nil hne]
    rfl
  · simp [summaryBlock, hlen]
  · rcases h : meanAmounts other with - | q <;> simp [summaryBlock, hlen, h]

/-- C8 witness: the amended statement instantiated with a concrete non-empty
`other` table. -/
theorem C8_witness :
    (([⟨some "A".toList, some 5, none, 1⟩] : List Row) ≠ [])
      ∧ (noNameMatchesMsg ≠ emptyPipelineMsg
          ∧ noNameMatchesMsg ≠ noOtherMsg
          ∧ emptyPipelineMsg ≠ noOtherMsg
          ∧ renderOtherStats [] = none
          ∧ renderOtherStats [⟨some "A".toList, some 5, none, 1⟩]
            = some (summaryBlock [⟨some "A".toList, some 5, none, 1⟩])
          ∧ (summaryBlock [⟨some "A".toList, some 5, none, 1⟩]).count
            = ([⟨some "A".toList, some 5, none, 1⟩] : List Row).length
          ∧ (summaryBlock [⟨some "A".toList, some 5, none, 1⟩]).total ≠ StatDisplay.na
          ∧ (summaryBlock [⟨some "A".toList, some 5, none, 1⟩]).avg ≠ StatDisplay.na) :=
  ⟨by decide, C8_empty_result_states [⟨some "A".toList, some 5, none, 1⟩] (by decide)⟩

/-- C5: with the unique-sendernames collapse enabled, `df_result` retains rows
of the uncollapsed table, exactly one per distinct sender, each carrying the
maximal transaction day among that sender's rows, and `df_other_amounts` is
identical to what it is without the collapse. -/
theorem C5_unique_collapse (S : List ℚ) (df : List Row) :
    (∀ r ∈ df_result S true df,
        r ∈ df_result S false df
          ∧ ∀ r2 ∈ df_result S false df, r2.sendername = r.sendername →
              r2.transday ≤ r.transday)
      ∧ (∀ r ∈ df_result S false df,
          ∃ x ∈ df_result S true df, x.sendername = r.sendername)
      ∧ (df_result S true df).Pairwise (fun a b => a.sendername ≠ b.sendername)
      ∧ df_other_amounts S true df = df_other_amounts S false df := by
  have hsorted : (List.insertionSort geByTransday (df_filtered S df)).Pairwise geByTransday :=
    List.sorted_insertionSort geByTransday (df_filtered S df)
  refine ⟨?_, ?_, ?_, ?_⟩
  · intro r hr
    rw [df_result_true] at hr
    constructor
    · rw [df_result_false]
      exact (List.mem_insertionSort geByTransday).mp ((dedupBySender_sublist _).subset hr)
    · intro r2 hr2 hsn
      rw [df_result_false] at hr2
      have hr2s : r2 ∈ List.insertionSort geByTransday (df_filtered S df) :=
        (List.mem_insertionSort geByTransday).mpr hr2
      exact dedupBySender_max _ hsorted r hr r2 hr2s hsn
  · intro r hr
    rw [df_result_false] at hr
    have hrs : r ∈ List.insertionSort geByTransday (df_filtered S df) :=
      (List.mem_insertionSort geByTransday).mpr hr
    obtain ⟨x, hx, he⟩ := dedupBySender_covers _ r hrs
    exact ⟨x, by rw [df_result_true]; exact hx, he⟩
  · rw [df_result_true]
    exact dedupBySender_pairwise _
  · by_cases hS : S = []
    · subst hS
      simp [df_other_amounts]
    · rw [df_other_eq_filter S true df hS, df_other_eq_filter S false df hS]
      refine List.filter_congr ?_
      intro r hrdf
      have hany : (df_result S true df).any (fun x => decide (x.sendername = r.sendername))
          = (df_result S false df).any (fun x => decide (x.sendername = r.sendername)) := by
        rw [Bool.eq_iff_iff]
        constructor
        · intro h1
          rw [List.any_eq_true] at h1 ⊢
          obtain ⟨x, hx, he⟩ := h1
          rw [df_result_true] at hx
          refine ⟨x, ?_, he⟩
          rw [df_result_false]
          exact (List.mem_insertionSort geByTransday).mp ((dedupBySender_sublist _).subset hx)
        · intro h1
          rw [List.any_eq_true] at h1 ⊢
          obtain ⟨x, hx, he⟩ := h1
          rw [df_result_false] at hx
          have hxs : x ∈ List.insertionSort geByTransday (df_filtered S df) :=
            (List.mem_insertionSort geByTransday).mpr hx
          obtain ⟨y, hy, hye⟩ := dedupBySender_covers _ x hxs
          refine ⟨y, by rw [df_result_true]; exact hy, ?_⟩
          rw [decide_eq_true_iff] at he ⊢
          rw [hye]
          exact he
      rw [hany]

/-- C5 witness: the collapse property instantiated with sender X holding two
rows of the selected amount (days 10 and 20) and sender Y one row; the
collapsed table is computed explicitly and retains X's day-20 row. -/
theorem C5_witness :
    df_result [(5 : ℚ)] true
        [⟨some "X".toList, some 5, none, 10⟩, ⟨some "X".toList, some 5, none, 20⟩,
          ⟨some "Y".toList, some 5, none, 3⟩]
      = [⟨some "X".toList, some 5, none, 20⟩, ⟨some "Y".toList, some 5, none, 3⟩]
      ∧ ((∀ r ∈ df_result [(5 : ℚ)] true
            [⟨some "X".toList, some 5, none, 10⟩, ⟨some "X".toList, some 5, none, 20⟩,
              ⟨some "Y".toList, some 5, none, 3⟩],
            r ∈ df_result [(5 : ℚ)] false
              [⟨some "X".toList, some 5, none, 10⟩, ⟨some "X".toList, some 5, none, 20⟩,
                ⟨some "Y".toList, some 5, none, 3⟩]
              ∧ ∀ r2 ∈ df_result [(5 : ℚ)] false
                  [⟨some "X".toList, some 5, none, 10⟩, ⟨some "X".toList, some 5, none, 20⟩,
                    ⟨some "Y".toList, some 5, none, 3⟩],
                  r2.sendername = r.sendername → r2.transday ≤ r.transday)
          ∧ (∀ r ∈ df_result [(5 : ℚ)] false
              [⟨some "X".toList, some 5, none, 10⟩, ⟨some "X".toList, some 5, none, 20⟩,
                ⟨some "Y".toList, some 5, none, 3⟩],
              ∃ x ∈ df_result [(5 : ℚ)] true
                [⟨some "X".toList, some 5, none, 10⟩, ⟨some "X".toList, some 5, none, 20⟩,
                  ⟨some "Y".toList, some 5, none, 3⟩], x.sendername = r.sendername)
          ∧ (df_result [(5 : ℚ)] true
              [⟨some "X".toList, some 5, none, 10⟩, ⟨some "X".toList, some 5, none, 20⟩,
                ⟨some "Y".toList, some 5, none, 3⟩]).Pairwise
              (fun a b => a.sendername ≠ b.sendername)
          ∧ df_other_amounts [(5 : ℚ)] true
              [⟨some "X".toList, some 5, none, 10⟩, ⟨some "X".toList, some 5, none, 20⟩,
                ⟨some "Y".toList, some 5, none, 3⟩]
            = df_other_amounts [(5 : ℚ)] false
                [⟨some "X".toList, some 5, none, 10⟩, ⟨some "X".toList, some 5, none, 20⟩,
                  ⟨some "Y".toList, some 5, none, 3⟩]) :=
  ⟨by decide, C5_unique_collapse [(5 : ℚ)] _⟩

end App
